import Mathlib

/-!
Verification of the queue-worker framework of this repository.

The worker framework itself (zerver/worker/queue_processors.py and
zerver/lib/queue.py) is not among the provided source files; only its test
suite (src/zerver/tests/test_queue_worker.py) is.  The queue transport used
by the tests (WorkerTest.FakeClient) IS in the sources and is embedded
directly.  Every definition of the worker loops below is therefore marked
"Modelled from the spec" and follows spec.md sections 4.1-4.4, 6 and 7,
with the test suite fixing concrete values (log messages, MAX_REQUEST_RETRIES).
-/

namespace Zulip

/-! ## Queue transport (embedded from src/zerver/tests/test_queue_worker.py,
    WorkerTest.FakeClient.start_json_consumer) -/

/-- Embedded from FakeClient.start_json_consumer: pop items off the front of
the queue, accumulating a chunk; whenever the chunk reaches batch size or the
queue is exhausted, deliver the chunk to the callback and reset it.  This
function returns the list of delivered chunks, in delivery order.  `chunk` is
the accumulator variable of the python loop. -/
def drainChunks (batchSize : Nat) (chunk : List α) : List α → List (List α)
  | [] => []
  | x :: queue =>
    let c := chunk ++ [x]
    if batchSize ≤ c.length || queue.isEmpty then
      c :: drainChunks batchSize [] queue
    else
      drainChunks batchSize c queue

/-- Embedded from FakeClient.start_json_consumer: the chunks delivered to the
callback for a given initial queue contents. -/
def startJsonConsumer (batchSize : Nat) (queue : List α) : List (List α) :=
  drainChunks batchSize [] queue

/-- With batch size 1 every delivered chunk is a singleton, in queue order. -/
theorem startJsonConsumer_one (queue : List α) :
    startJsonConsumer 1 queue = queue.map (fun x => [x]) := by
  show drainChunks 1 [] queue = queue.map (fun x => [x])
  induction queue with
  | nil => rfl
  | cons x xs ih =>
    simp [drainChunks, ih]

/-- Joining the singleton chunks recovers the queue. -/
theorem join_startJsonConsumer_one (queue : List α) :
    (startJsonConsumer 1 queue).flatten = queue := by
  rw [startJsonConsumer_one]
  induction queue with
  | nil => rfl
  | cons x xs ih => simp [ih]

/-! ## Log taxonomy (modelled from spec sections 4.1, 4.3, 7 and the log
    messages asserted in src/zerver/tests/test_queue_worker.py) -/

inductive LogLevel where
  | debug
  | info
  | warning
  | error
deriving DecidableEq, Repr

/-- Modelled from the spec: the log records the base worker loop can emit.
problemHandling is the "Problem handling data on queue ..." record written on
a handler exception; timedOut is the "Timed out after N seconds processing
... events in queue ..." record, carrying the configured limit in seconds and
the items being processed when the timeout fired. -/
inductive WorkerLog (α : Type) where
  | problemHandling
  | timedOut (limitSeconds : Nat) (items : List α)
deriving DecidableEq

/-- Modelled from the spec: both failure records of the base loop are logged
at ERROR level. -/
def WorkerLog.level : WorkerLog α → LogLevel
  | .problemHandling => .error
  | .timedOut _ _ => .error

/-- Modelled from the spec: both failure records carry a stack trace
(the tests assert records[0].stack_info is present). -/
def WorkerLog.hasStackTrace : WorkerLog α → Bool
  | .problemHandling => true
  | .timedOut _ _ => true

/-! ## QueueProcessingWorker: single-item loop (modelled from spec 4.1) -/

/-- Behaviour of one handler invocation on a given item: whether the handler
raises an exception, and how long it runs (wall-clock seconds), used by the
timeout guard. -/
structure ConsumeBehavior where
  raises : Bool := false
  seconds : Nat := 0

/-- Observable outcome of one worker run: every consume invocation in order,
the items the handler completed successfully, the dead-letter records (each a
list of items appended as one record), and the logs. -/
structure SingleRun (α : Type) where
  calls : List α
  processed : List α
  deadLetter : List (List α)
  logs : List (WorkerLog α)
deriving DecidableEq

/-- Modelled from the spec (4.1): the timeout guard fires only when timeouts
are explicitly enabled, a MAX_CONSUME_SECONDS limit is configured, and the
handler runs strictly longer than the limit. -/
def exceedsLimit (enabled : Bool) (limit : Option Nat) (b : ConsumeBehavior) : Bool :=
  enabled &&
    match limit with
    | some t => decide (t < b.seconds)
    | none => false

/-- Modelled from the spec (4.1): one iteration of the single-item consume
loop of QueueProcessingWorker.  The item is passed to consume; on timeout or
exception the single offending item is appended to the dead-letter file as a
one-item batch and an ERROR record is logged; otherwise the item counts as
processed.  In every case the loop continues with the next item. -/
def stepSingle (enabled : Bool) (limit : Option Nat) (behave : α → ConsumeBehavior)
    (st : SingleRun α) (item : α) : SingleRun α :=
  let b := behave item
  if exceedsLimit enabled limit b then
    { st with
      calls := st.calls ++ [item]
      deadLetter := st.deadLetter ++ [[item]]
      logs := st.logs ++ [.timedOut (limit.getD 0) [item]] }
  else if b.raises then
    { st with
      calls := st.calls ++ [item]
      deadLetter := st.deadLetter ++ [[item]]
      logs := st.logs ++ [.problemHandling] }
  else
    { st with
      calls := st.calls ++ [item]
      processed := st.processed ++ [item] }

/-- Modelled from the spec (4.1): QueueProcessingWorker.start consumes from
the transport with batch size 1 until the queue is exhausted, handling each
delivered item with stepSingle. -/
def runSingleWorker (enabled : Bool) (limit : Option Nat) (behave : α → ConsumeBehavior)
    (queue : List α) : SingleRun α :=
  ((startJsonConsumer 1 queue).flatten).foldl (stepSingle enabled limit behave)
    { calls := [], processed := [], deadLetter := [], logs := [] }

/-- Folding the single-item step over a list of well-behaved items (no raise,
within the time limit) appends them all to calls and processed and touches
nothing else. -/
theorem foldl_stepSingle_good (enabled : Bool) (limit : Option Nat)
    (behave : α → ConsumeBehavior) (st : SingleRun α) (items : List α)
    (h : ∀ x ∈ items, (behave x).raises = false ∧
      exceedsLimit enabled limit (behave x) = false) :
    items.foldl (stepSingle enabled limit behave) st =
      { st with calls := st.calls ++ items, processed := st.processed ++ items } := by
  induction items generalizing st with
  | nil => simp
  | cons x xs ih =>
    have hx := h x (by simp)
    have hxs : ∀ y ∈ xs, (behave y).raises = false ∧
        exceedsLimit enabled limit (behave y) = false :=
      fun y hy => h y (by simp [hy])
    simp only [List.foldl_cons]
    rw [ih _ hxs]
    simp [stepSingle, hx.1, hx.2]

/-- A run over well-behaved items, described as one structure equality. -/
theorem runSingleWorker_good (enabled : Bool) (limit : Option Nat)
    (behave : α → ConsumeBehavior) (queue : List α)
    (h : ∀ x ∈ queue, (behave x).raises = false ∧
      exceedsLimit enabled limit (behave x) = false) :
    runSingleWorker enabled limit behave queue =
      { calls := queue, processed := queue, deadLetter := [], logs := [] } := by
  unfold runSingleWorker
  rw [join_startJsonConsumer_one, foldl_stepSingle_good enabled limit behave _ queue h]
  simp

/-- A run over a queue with a single item on which the loop takes a failure
branch (timeout or exception), described as one structure equality. -/
theorem runSingleWorker_one_bad (enabled : Bool) (limit : Option Nat)
    (behave : α → ConsumeBehavior) (pre post : List α) (bad : α) (entry : WorkerLog α)
    (hpre : ∀ x ∈ pre, (behave x).raises = false ∧
      exceedsLimit enabled limit (behave x) = false)
    (hpost : ∀ x ∈ post, (behave x).raises = false ∧
      exceedsLimit enabled limit (behave x) = false)
    (hbad : ∀ s : SingleRun α, stepSingle enabled limit behave s bad =
      { s with calls := s.calls ++ [bad], deadLetter := s.deadLetter ++ [[bad]],
               logs := s.logs ++ [entry] }) :
    runSingleWorker enabled limit behave (pre ++ bad :: post) =
      { calls := pre ++ bad :: post, processed := pre ++ post,
        deadLetter := [[bad]], logs := [entry] } := by
  unfold runSingleWorker
  rw [join_startJsonConsumer_one, List.foldl_append,
    foldl_stepSingle_good enabled limit behave _ pre hpre]
  simp only [List.foldl_cons]
  rw [hbad, foldl_stepSingle_good enabled limit behave _ post hpost]
  simp

/-- C1: for every sequence of valid items enqueued to a single-item
QueueProcessingWorker, if the handler raises on none of them, then after
start returns every item has been passed to consume exactly once, and the
order of consume invocations equals the enqueue order (timeouts are disabled
by default: ENABLE_TIMEOUTS is false). -/
theorem single_worker_processes_in_enqueue_order (limit : Option Nat)
    (behave : α → ConsumeBehavior) (queue : List α)
    (h : ∀ x ∈ queue, (behave x).raises = false) :
    (runSingleWorker false limit behave queue).calls = queue ∧
    (runSingleWorker false limit behave queue).processed = queue := by
  rw [runSingleWorker_good false limit behave queue
    (fun x hx => ⟨h x hx, by simp [exceedsLimit]⟩)]
  exact ⟨rfl, rfl⟩

theorem single_worker_processes_in_enqueue_order_witness :
    (runSingleWorker false none (fun _ : Nat => { raises := false }) [5, 6, 7]).calls
        = [5, 6, 7] ∧
    (runSingleWorker false none (fun _ : Nat => { raises := false }) [5, 6, 7]).processed
        = [5, 6, 7] :=
  single_worker_processes_in_enqueue_order none _ [5, 6, 7] (by intro x hx; rfl)

/-- C2: if consume raises a non-timeout exception exactly for one item of the
sequence, that exception is logged at ERROR level with a stack trace, exactly
the offending item is appended to the dead-letter file as a one-item batch,
and every other item of the sequence is still processed: the loop does not
halt. -/
theorem single_worker_isolates_failing_item (limit : Option Nat)
    (behave : α → ConsumeBehavior) (pre post : List α) (bad : α)
    (hpre : ∀ x ∈ pre, (behave x).raises = false)
    (hpost : ∀ x ∈ post, (behave x).raises = false)
    (hbad : (behave bad).raises = true) :
    (runSingleWorker false limit behave (pre ++ bad :: post)).processed = pre ++ post ∧
    (runSingleWorker false limit behave (pre ++ bad :: post)).deadLetter = [[bad]] ∧
    (runSingleWorker false limit behave (pre ++ bad :: post)).logs
        = [WorkerLog.problemHandling] ∧
    WorkerLog.level (WorkerLog.problemHandling : WorkerLog α) = LogLevel.error ∧
    WorkerLog.hasStackTrace (WorkerLog.problemHandling : WorkerLog α) = true ∧
    (runSingleWorker false limit behave (pre ++ bad :: post)).calls = pre ++ bad :: post := by
  rw [runSingleWorker_one_bad false limit behave pre post bad WorkerLog.problemHandling
    (fun x hx => ⟨hpre x hx, by simp [exceedsLimit]⟩)
    (fun x hx => ⟨hpost x hx, by simp [exceedsLimit]⟩)
    (fun s => by simp [stepSingle, exceedsLimit, hbad])]
  exact ⟨rfl, rfl, rfl, rfl, rfl, rfl⟩

theorem single_worker_isolates_failing_item_witness :
    (runSingleWorker false none (fun n : Nat => { raises := n == 2 }) [0, 1, 2, 3]).processed
        = [0, 1, 3] ∧
    (runSingleWorker false none (fun n : Nat => { raises := n == 2 }) [0, 1, 2, 3]).deadLetter
        = [[2]] ∧
    (runSingleWorker false none (fun n : Nat => { raises := n == 2 }) [0, 1, 2, 3]).logs
        = [WorkerLog.problemHandling] ∧
    WorkerLog.level (WorkerLog.problemHandling : WorkerLog Nat) = LogLevel.error ∧
    WorkerLog.hasStackTrace (WorkerLog.problemHandling : WorkerLog Nat) = true ∧
    (runSingleWorker false none (fun n : Nat => { raises := n == 2 }) [0, 1, 2, 3]).calls
        = [0, 1, 2, 3] :=
  single_worker_isolates_failing_item none _ [0, 1] [3] 2
    (by decide) (by decide) (by decide)

/-- C4: with timeouts enabled and a configured MAX_CONSUME_SECONDS, a consume
call running strictly longer than the limit is aborted: an ERROR record
carrying the exact configured limit and the item identity is logged, the item
is dead-lettered exactly like a handler exception (a one-item record), and
all other enqueued items are still processed. -/
theorem timeout_dead_letters_like_exception (t : Nat)
    (behave : α → ConsumeBehavior) (pre post : List α) (slow : α)
    (hpre : ∀ x ∈ pre, (behave x).raises = false ∧ (behave x).seconds ≤ t)
    (hpost : ∀ x ∈ post, (behave x).raises = false ∧ (behave x).seconds ≤ t)
    (hslow : t < (behave slow).seconds) :
    (runSingleWorker true (some t) behave (pre ++ slow :: post)).processed = pre ++ post ∧
    (runSingleWorker true (some t) behave (pre ++ slow :: post)).deadLetter = [[slow]] ∧
    (runSingleWorker true (some t) behave (pre ++ slow :: post)).logs
        = [WorkerLog.timedOut t [slow]] ∧
    WorkerLog.level (WorkerLog.timedOut t [slow]) = LogLevel.error ∧
    (runSingleWorker true (some t) behave (pre ++ slow :: post)).calls
        = pre ++ slow :: post := by
  have hfit : ∀ x ∈ pre ++ post, exceedsLimit true (some t) (behave x) = false := by
    intro x hx
    rcases List.mem_append.1 hx with h | h
    · simp [exceedsLimit, Nat.not_lt.2 (hpre x h).2]
    · simp [exceedsLimit, Nat.not_lt.2 (hpost x h).2]
  rw [runSingleWorker_one_bad true (some t) behave pre post slow (WorkerLog.timedOut t [slow])
    (fun x hx => ⟨(hpre x hx).1, hfit x (List.mem_append.2 (Or.inl hx))⟩)
    (fun x hx => ⟨(hpost x hx).1, hfit x (List.mem_append.2 (Or.inr hx))⟩)
    (fun s => by simp [stepSingle, exceedsLimit, hslow])]
  exact ⟨rfl, rfl, rfl, rfl, rfl⟩

theorem timeout_dead_letters_like_exception_witness :
    (runSingleWorker true (some 1)
      (fun n : Nat => { raises := false, seconds := if n == 2 then 5 else 0 })
      [0, 1, 2, 3]).processed = [0, 1, 3] ∧
    (runSingleWorker true (some 1)
      (fun n : Nat => { raises := false, seconds := if n == 2 then 5 else 0 })
      [0, 1, 2, 3]).deadLetter = [[2]] ∧
    (runSingleWorker true (some 1)
      (fun n : Nat => { raises := false, seconds := if n == 2 then 5 else 0 })
      [0, 1, 2, 3]).logs = [WorkerLog.timedOut 1 [2]] ∧
    WorkerLog.level (WorkerLog.timedOut 1 [2]) = LogLevel.error ∧
    (runSingleWorker true (some 1)
      (fun n : Nat => { raises := false, seconds := if n == 2 then 5 else 0 })
      [0, 1, 2, 3]).calls = [0, 1, 2, 3] :=
  timeout_dead_letters_like_exception 1 _ [0, 1] [3] 2
    (by decide) (by decide) (by decide)

/-! ## LoopQueueProcessingWorker: batch loop (modelled from spec 4.2) -/

/-- Observable outcome of a batch-worker run: the items the batch handler got
through, the dead-letter records, and the logs. -/
structure LoopRun (α : Type) where
  processed : List α
  deadLetter : List (List α)
  logs : List (WorkerLog α)
deriving DecidableEq

/-- Modelled from the spec (4.2): one consume_batch invocation, for a handler
that walks the batch in order and raises on items satisfying `bad` (the shape
of UnreliableLoopWorker.consume_batch in the test suite).  On an exception
anywhere in the batch, the items handled before the failure have already been
processed, the ENTIRE batch in original order is appended to the dead-letter
file as one record, an ERROR record is logged, and the loop moves on to the
next batch. -/
def stepLoop (bad : α → Bool) (st : LoopRun α) (events : List α) : LoopRun α :=
  if events.any bad then
    { st with
      processed := st.processed ++ events.takeWhile (fun e => !bad e)
      deadLetter := st.deadLetter ++ [events]
      logs := st.logs ++ [.problemHandling] }
  else
    { st with processed := st.processed ++ events }

/-- Modelled from the spec (4.2): LoopQueueProcessingWorker.start consumes
from the transport in chunks of the configured batch size, handing each
delivered chunk to consume_batch. -/
def runLoopWorker (bad : α → Bool) (batchSize : Nat) (queue : List α) : LoopRun α :=
  (startJsonConsumer batchSize queue).foldl (stepLoop bad)
    { processed := [], deadLetter := [], logs := [] }

/-- The batch fold, described by two closed forms: processed is the join of
each batch's prefix up to its first bad item, and the dead-letter records are
exactly the batches containing a bad item. -/
theorem foldl_stepLoop_closed (bad : α → Bool) (st : LoopRun α) (bs : List (List α)) :
    bs.foldl (stepLoop bad) st =
      { st with
        processed := st.processed ++ (bs.map (fun c => c.takeWhile (fun e => !bad e))).flatten
        deadLetter := st.deadLetter ++ bs.filter (fun c => c.any bad)
        logs := st.logs ++ (bs.filter (fun c => c.any bad)).map (fun _ => .problemHandling) } := by
  induction bs generalizing st with
  | nil => simp
  | cons c cs ih =>
    simp only [List.foldl_cons]
    rw [ih]
    by_cases hc : c.any bad = true
    · simp [stepLoop, hc, List.filter_cons]
    · have hc' : ∀ e ∈ c, bad e = false := by
        rw [Bool.not_eq_true] at hc
        intro e he
        simpa using List.any_eq_false.1 hc e he
      have hall : c.takeWhile (fun e => !bad e) = c := by
        rw [List.takeWhile_eq_self_iff]
        intro e he
        simp [hc' e he]
      simp [stepLoop, hc, List.filter_cons, hall]

/-- C3: if the handler raises anywhere in a batch handed to
LoopQueueProcessingWorker.consume_batch, the entire batch — all its items, in
their original order — is written to the dead-letter file as one record, only
the items the handler got through before the failure count as processed, and
the loop continues with the next batch (every batch contributes its own
prefix to processed, and subsequent batches are still handled). -/
theorem loop_worker_dead_letters_entire_batch (bad : α → Bool) (batchSize : Nat)
    (queue : List α) (b : List α)
    (hb : b ∈ startJsonConsumer batchSize queue)
    (hbad : b.any bad = true) :
    b ∈ (runLoopWorker bad batchSize queue).deadLetter ∧
    (runLoopWorker bad batchSize queue).deadLetter
        = (startJsonConsumer batchSize queue).filter (fun c => c.any bad) ∧
    (runLoopWorker bad batchSize queue).processed
        = ((startJsonConsumer batchSize queue).map
            (fun c => c.takeWhile (fun e => !bad e))).flatten := by
  unfold runLoopWorker
  rw [foldl_stepLoop_closed]
  refine ⟨?_, by simp, by simp⟩
  simp only [List.nil_append]
  exact List.mem_filter.2 ⟨hb, hbad⟩

theorem loop_worker_dead_letters_entire_batch_witness :
    [10, 11, 2, 13] ∈ (runLoopWorker (fun n : Nat => n == 2) 4
        [10, 11, 2, 13, 20, 21]).deadLetter ∧
    (runLoopWorker (fun n : Nat => n == 2) 4 [10, 11, 2, 13, 20, 21]).deadLetter
        = (startJsonConsumer 4 [10, 11, 2, 13, 20, 21]).filter
            (fun c => c.any (fun n => n == 2)) ∧
    (runLoopWorker (fun n : Nat => n == 2) 4 [10, 11, 2, 13, 20, 21]).processed
        = ((startJsonConsumer 4 [10, 11, 2, 13, 20, 21]).map
            (fun c => c.takeWhile (fun e => !(e == 2)))).flatten :=
  loop_worker_dead_letters_entire_batch (fun n => n == 2) 4
    [10, 11, 2, 13, 20, 21] [10, 11, 2, 13] (by decide) (by decide)

/-! ## Handler-driven retry with requeue (modelled from spec 4.1, 6 and 7;
    MAX_REQUEST_RETRIES comes from zerver/lib/queue.py, which is absent from
    the sources: the test suite evidences its value, retrying 3 times beyond
    the first attempt) -/

/-- Modelled from the spec: the global retry cap MAX_REQUEST_RETRIES of
zerver/lib/queue.py. -/
def MAX_REQUEST_RETRIES : Nat := 3

/-- A queue item whose handler needs transport-level retry: an opaque payload
plus the failed_tries counter (int, default 0) mutated in place by the retry
path. -/
structure RetryItem (π : Type) where
  payload : π
  failed_tries : Nat := 0
deriving DecidableEq

/-- Observable outcome of a run of a worker whose handler's remote call
always fails with a retryable error: the snapshot of each handler invocation
(with the failed_tries value at call time), the payloads for which a
"maximum retries exceeded" warning was logged, and the abandoned items with
their final counters. -/
structure RetryRun (π : Type) where
  invocations : List (RetryItem π)
  warnings : List π
  abandoned : List (RetryItem π)
deriving DecidableEq

/-- Modelled from the spec (4.1, 6, 7): the consume loop over a live queue
whose handler always fails with a retryable error.  Each attempt invokes the
handler, then takes the retry path: failed_tries is incremented in place; if
it now exceeds the cap the item is abandoned without re-publishing and exactly
one "maximum retries exceeded" warning is logged for it, otherwise the item is
re-published to the same queue (the FakeClient appends it at the back, and the
same run picks it up again).  `fuel` bounds the number of loop iterations; a
run is given enough fuel to drain the queue. -/
def runRetryWorker (cap : Nat) : Nat → List (RetryItem π) → RetryRun π → RetryRun π
  | _, [], acc => acc
  | 0, _ :: _, acc => acc
  | fuel + 1, item :: rest, acc =>
    let bumped : RetryItem π := { item with failed_tries := item.failed_tries + 1 }
    if cap < bumped.failed_tries then
      runRetryWorker cap fuel rest
        { acc with
          invocations := acc.invocations ++ [item]
          warnings := acc.warnings ++ [item.payload]
          abandoned := acc.abandoned ++ [bumped] }
    else
      runRetryWorker cap fuel (rest ++ [bumped])
        { acc with invocations := acc.invocations ++ [item] }

/-- C5: for every item whose handler's remote call always fails with a
retryable error, the handler is invoked exactly 1 + MAX_REQUEST_RETRIES times
in total (the first attempt plus MAX_REQUEST_RETRIES retries), the item's
failed_tries counter ends at 1 + MAX_REQUEST_RETRIES, exactly one "maximum
retries exceeded" warning is logged per distinct failing item, and the item is
then abandoned rather than re-published.  Stated for a run over one failing
item and for a run over two, showing one warning per item. -/
theorem retry_cap_attempts_and_single_warning (p q : π) :
    (runRetryWorker MAX_REQUEST_RETRIES 4 [{ payload := p }]
        { invocations := [], warnings := [], abandoned := [] }) =
      { invocations := [{ payload := p, failed_tries := 0 },
          { payload := p, failed_tries := 1 }, { payload := p, failed_tries := 2 },
          { payload := p, failed_tries := 3 }],
        warnings := [p],
        abandoned := [{ payload := p, failed_tries := 1 + MAX_REQUEST_RETRIES }] } ∧
    (runRetryWorker MAX_REQUEST_RETRIES 4 [{ payload := p }]
        { invocations := [], warnings := [], abandoned := [] }).invocations.length
      = 1 + MAX_REQUEST_RETRIES ∧
    (runRetryWorker MAX_REQUEST_RETRIES 8 [{ payload := p }, { payload := q }]
        { invocations := [], warnings := [], abandoned := [] }).warnings = [p, q] ∧
    (runRetryWorker MAX_REQUEST_RETRIES 8 [{ payload := p }, { payload := q }]
        { invocations := [], warnings := [], abandoned := [] }).abandoned =
      [{ payload := p, failed_tries := 1 + MAX_REQUEST_RETRIES },
       { payload := q, failed_tries := 1 + MAX_REQUEST_RETRIES }] :=
  ⟨rfl, rfl, rfl, rfl⟩

/-! ## Missed-message batching worker (modelled from spec 4.3; the worker
    MissedMessageWorker of zerver/worker/queue_processors.py is absent from
    the sources) -/

/-- An incoming missedmessage_emails queue event. -/
structure MMEvent where
  user_profile_id : Nat
  message_id : Nat
  trigger : String
  mentioned_user_group_id : Option Nat := none
deriving DecidableEq

/-- A persisted ScheduledMessageNotificationEmail row.  Time is modelled as
Nat seconds. -/
structure MMRow where
  user_profile_id : Nat
  message_id : Nat
  trigger : String
  mentioned_user_group_id : Option Nat
  scheduled_timestamp : Nat
deriving DecidableEq

/-- One invocation of the notification-send handler: the recipient, the full
grouped set of that recipient's rows, and its count. -/
structure SendCall where
  user_profile_id : Nat
  missed_rows : List MMRow
  count : Nat
deriving DecidableEq

/-- Modelled from the spec: the log records of the missed-message worker.
rowNotCreated is the DEBUG record emitted when persisting an event hits a
referential-integrity error; batchProcessing is the INFO record emitted once
per flushed recipient. -/
inductive MMLog where
  | rowNotCreated
  | batchProcessing (count : Nat) (userId : Nat)
deriving DecidableEq

def MMLog.level : MMLog → LogLevel
  | .rowNotCreated => .debug
  | .batchProcessing _ _ => .info

/-- The message text of each missed-message log record, as asserted by the
test suite. -/
def MMLog.message : MMLog → String
  | .rowNotCreated =>
      "ScheduledMessageNotificationEmail row could not be created. The message may have been deleted. Skipping event."
  | .batchProcessing count userId =>
      "Batch-processing " ++ toString count ++ " missedmessage_emails events for user "
        ++ toString userId

/-- Worker state: the persisted rows, whether the periodic check timer is
armed, the notification-send handler invocations made so far, and the logs. -/
structure MMState where
  rows : List MMRow
  timerArmed : Bool
  sent : List SendCall
  logs : List MMLog
deriving DecidableEq

/-- Modelled from the spec (4.3, data model 3): the scheduled timestamp for an
event arriving at `now`.  If the recipient has an open batch — a persisted row
whose deadline has not yet passed — the event joins that batch and shares its
scheduled_timestamp; otherwise a new batch starts with scheduled_timestamp =
now + the recipient's batching window. -/
def scheduledTimestampFor (window now uid : Nat) (rows : List MMRow) : Nat :=
  match rows.find? (fun r => r.user_profile_id == uid && decide (now ≤ r.scheduled_timestamp)) with
  | some r => r.scheduled_timestamp
  | none => now + window

/-- Modelled from the spec (4.3): consuming one event.  The event is persisted
immediately as a durable row with its batch's scheduled_timestamp, and the
periodic check timer is armed if it was not already.  `persistOk` is false
when the persistence step raises a referential-integrity error (the target
message was deleted): then the event is dropped with a DEBUG log, nothing
propagates, and existing state is untouched. -/
def handleMissedMessageEvent (window now : Nat) (persistOk : Bool)
    (st : MMState) (e : MMEvent) : MMState :=
  let row : MMRow :=
    { user_profile_id := e.user_profile_id
      message_id := e.message_id
      trigger := e.trigger
      mentioned_user_group_id := e.mentioned_user_group_id
      scheduled_timestamp := scheduledTimestampFor window now e.user_profile_id st.rows }
  if persistOk then
    { st with
      rows := st.rows ++ [row]
      timerArmed := true }
  else
    { st with logs := st.logs ++ [.rowNotCreated] }

/-- Modelled from the spec (4.3): the worker's consume loop over the events
delivered by the transport, all arriving at the same `now`; `persistOk`
says which events hit the referential-integrity race at the persistence
step. -/
def runMissedMessageWorker (window now : Nat) (persistOk : MMEvent → Bool)
    (events : List MMEvent) (st : MMState) : MMState :=
  events.foldl (fun s e => handleMissedMessageEvent window now (persistOk e) s e) st

/-- The recipients with at least one row due at `now`, each exactly once. -/
def dueUserIds (now : Nat) (rows : List MMRow) : List Nat :=
  ((rows.filter (fun r => decide (r.scheduled_timestamp ≤ now))).map
    (fun r => r.user_profile_id)).dedup

/-- Modelled from the spec (4.3): the notification-send handler invocations a
flush at `now` makes — one per due recipient, carrying the full grouped set
of that recipient's rows and its count. -/
def flushCalls (now : Nat) (rows : List MMRow) : List SendCall :=
  (dueUserIds now rows).map (fun uid =>
    let urows := rows.filter (fun r => r.user_profile_id == uid)
    { user_profile_id := uid, missed_rows := urows, count := urows.length })

/-- Modelled from the spec (4.3): maybe_send_batched_emails.  For every
recipient with a row due at `now`, atomically fetch and delete all of that
recipient's rows and invoke the notification-send handler once with the
grouped set and its count, logging one INFO record per recipient; recipients
not yet due are left untouched.  If no rows remain afterwards the periodic
timer is not rearmed. -/
def maybeSendBatchedEmails (now : Nat) (st : MMState) : MMState :=
  let due := dueUserIds now st.rows
  let remaining := st.rows.filter (fun r => !due.contains r.user_profile_id)
  { rows := remaining
    timerArmed := if remaining.isEmpty then false else st.timerArmed
    sent := st.sent ++ flushCalls now st.rows
    logs := st.logs ++ (flushCalls now st.rows).map
      (fun c => .batchProcessing c.count c.user_profile_id) }

/-- If no persisted row belongs to the recipient, the open-batch lookup finds
nothing. -/
theorem find?_none_of_fresh (uid now : Nat) (rows : List MMRow)
    (h : ∀ r ∈ rows, r.user_profile_id ≠ uid) :
    rows.find? (fun r => r.user_profile_id == uid
      && decide (now ≤ r.scheduled_timestamp)) = none :=
  List.find?_eq_none.2 (fun r hr => by simp [h r hr])

/-- The row an event is persisted as, given its batch timestamp. -/
def rowOf (e : MMEvent) (ts : Nat) : MMRow :=
  { user_profile_id := e.user_profile_id
    message_id := e.message_id
    trigger := e.trigger
    mentioned_user_group_id := e.mentioned_user_group_id
    scheduled_timestamp := ts }

/-- Persisting an event appends exactly its row, at the batch timestamp. -/
theorem handleMissedMessageEvent_rows (window now : Nat) (st : MMState) (e : MMEvent) :
    (handleMissedMessageEvent window now true st e).rows
      = st.rows ++ [rowOf e (scheduledTimestampFor window now e.user_profile_id st.rows)] :=
  rfl

/-- C6: a first event for an idle recipient opens a batch whose row carries
scheduled_timestamp = first-event time + batching window; a further event
persisted while that batch is open (deadline not yet passed) is stored with
that same scheduled_timestamp, and appending it leaves every existing row —
hence the deadline — unchanged; an event arriving after the deadline has
passed starts a new batch with a new scheduled_timestamp. -/
theorem open_batch_shares_scheduled_timestamp (window t0 now : Nat) (st : MMState)
    (e e2 : MMEvent)
    (huid : e2.user_profile_id = e.user_profile_id)
    (hfresh : ∀ r ∈ st.rows, r.user_profile_id ≠ e.user_profile_id) :
    (∃ row : MMRow,
      (handleMissedMessageEvent window t0 true st e).rows = st.rows ++ [row] ∧
      row.user_profile_id = e.user_profile_id ∧
      row.scheduled_timestamp = t0 + window) ∧
    (now ≤ t0 + window →
      ∃ row2 : MMRow,
        (handleMissedMessageEvent window now true
            (handleMissedMessageEvent window t0 true st e) e2).rows
          = (handleMissedMessageEvent window t0 true st e).rows ++ [row2] ∧
        row2.scheduled_timestamp = t0 + window) ∧
    (t0 + window < now →
      ∃ row2 : MMRow,
        (handleMissedMessageEvent window now true
            (handleMissedMessageEvent window t0 true st e) e2).rows
          = (handleMissedMessageEvent window t0 true st e).rows ++ [row2] ∧
        row2.scheduled_timestamp = now + window) := by
  have hts : scheduledTimestampFor window t0 e.user_profile_id st.rows = t0 + window := by
    unfold scheduledTimestampFor
    rw [find?_none_of_fresh _ _ _ hfresh]
  have hrows1 : (handleMissedMessageEvent window t0 true st e).rows
      = st.rows ++ [rowOf e (t0 + window)] := by
    rw [handleMissedMessageEvent_rows, hts]
  refine ⟨⟨rowOf e (t0 + window), hrows1, rfl, rfl⟩, ?_, ?_⟩
  · intro hopen
    refine ⟨_, handleMissedMessageEvent_rows window now _ e2, ?_⟩
    show scheduledTimestampFor window now e2.user_profile_id
        (handleMissedMessageEvent window t0 true st e).rows = t0 + window
    rw [hrows1]
    unfold scheduledTimestampFor
    rw [List.find?_append, find?_none_of_fresh _ _ _ (by rw [huid]; exact hfresh)]
    simp [rowOf, huid, hopen]
  · intro hlate
    refine ⟨_, handleMissedMessageEvent_rows window now _ e2, ?_⟩
    show scheduledTimestampFor window now e2.user_profile_id
        (handleMissedMessageEvent window t0 true st e).rows = now + window
    rw [hrows1]
    unfold scheduledTimestampFor
    rw [List.find?_append, find?_none_of_fresh _ _ _ (by rw [huid]; exact hfresh)]
    simp [rowOf, Nat.not_le.2 hlate]

/-- Sample values for concrete instantiations. -/
def mmEmpty : MMState :=
  { rows := [], timerArmed := false, sent := [], logs := [] }

def mmEventA : MMEvent :=
  { user_profile_id := 1, message_id := 10, trigger := "private_message" }

def mmEventB : MMEvent :=
  { user_profile_id := 1, message_id := 11, trigger := "private_message" }

def mmRowA : MMRow :=
  { user_profile_id := 1
    message_id := 10
    trigger := "private_message"
    mentioned_user_group_id := none
    scheduled_timestamp := 60 }

def mmStateA : MMState :=
  { rows := [mmRowA], timerArmed := true, sent := [], logs := [] }

theorem open_batch_shares_scheduled_timestamp_witness :
    (∃ row : MMRow,
      (handleMissedMessageEvent 60 0 true mmEmpty mmEventA).rows = mmEmpty.rows ++ [row] ∧
      row.user_profile_id = mmEventA.user_profile_id ∧
      row.scheduled_timestamp = 0 + 60) ∧
    (∃ row2 : MMRow,
      (handleMissedMessageEvent 60 3 true
          (handleMissedMessageEvent 60 0 true mmEmpty mmEventA) mmEventB).rows
        = (handleMissedMessageEvent 60 0 true mmEmpty mmEventA).rows ++ [row2] ∧
      row2.scheduled_timestamp = 0 + 60) ∧
    (∃ row2 : MMRow,
      (handleMissedMessageEvent 60 100 true
          (handleMissedMessageEvent 60 0 true mmEmpty mmEventA) mmEventB).rows
        = (handleMissedMessageEvent 60 0 true mmEmpty mmEventA).rows ++ [row2] ∧
      row2.scheduled_timestamp = 100 + 60) :=
  ⟨(open_batch_shares_scheduled_timestamp 60 0 3 mmEmpty mmEventA mmEventB
      rfl (by decide)).1,
   (open_batch_shares_scheduled_timestamp 60 0 3 mmEmpty mmEventA mmEventB
      rfl (by decide)).2.1 (by decide),
   (open_batch_shares_scheduled_timestamp 60 0 100 mmEmpty mmEventA mmEventB
      rfl (by decide)).2.2 (by decide)⟩

/-- C7: when maybe_send_batched_emails runs at `now`: if now is before every
pending row's scheduled_timestamp it deletes no rows and sends nothing; for
every recipient with a row due at now, the flush invokes the notification-send
handler exactly once for that recipient, with the full grouped set of the
recipient's rows and its count, and deletes all of that recipient's rows
(recipients not yet due being left untouched by the first part); and if zero
rows remain pending afterwards the periodic timer is not rearmed. -/
theorem flush_due_recipients_exactly_once (now : Nat) (st : MMState) :
    ((∀ r ∈ st.rows, now < r.scheduled_timestamp) →
      (maybeSendBatchedEmails now st).rows = st.rows ∧
      (maybeSendBatchedEmails now st).sent = st.sent) ∧
    (∀ uid, (∃ r ∈ st.rows, r.user_profile_id = uid ∧ r.scheduled_timestamp ≤ now) →
      (flushCalls now st.rows).countP (fun c => c.user_profile_id == uid) = 1 ∧
      ({ user_profile_id := uid
         missed_rows := st.rows.filter (fun r => r.user_profile_id == uid)
         count := (st.rows.filter (fun r => r.user_profile_id == uid)).length } : SendCall)
        ∈ flushCalls now st.rows ∧
      (maybeSendBatchedEmails now st).sent = st.sent ++ flushCalls now st.rows ∧
      ∀ r ∈ (maybeSendBatchedEmails now st).rows, r.user_profile_id ≠ uid) ∧
    ((maybeSendBatchedEmails now st).rows = [] →
      (maybeSendBatchedEmails now st).timerArmed = false) := by
  refine ⟨?_, ?_, ?_⟩
  · intro hearly
    have hfilter : st.rows.filter (fun r => decide (r.scheduled_timestamp ≤ now)) = [] := by
      rw [List.filter_eq_nil_iff]
      intro r hr
      simp [Nat.not_le.2 (hearly r hr)]
    have hdue : dueUserIds now st.rows = [] := by
      unfold dueUserIds
      rw [hfilter]
      rfl
    constructor
    · simp [maybeSendBatchedEmails, hdue]
    · simp [maybeSendBatchedEmails, flushCalls, hdue]
  · intro uid hdue
    obtain ⟨r, hr, hruid, hrts⟩ := hdue
    have hmem : uid ∈ dueUserIds now st.rows := by
      unfold dueUserIds
      rw [List.mem_dedup, List.mem_map]
      exact ⟨r, List.mem_filter.2 ⟨hr, by simp [hrts]⟩, hruid⟩
    refine ⟨?_, ?_, ?_, ?_⟩
    · unfold flushCalls
      rw [List.countP_map]
      have heq : ((fun c : SendCall => c.user_profile_id == uid) ∘ fun u =>
          let urows := st.rows.filter (fun r => r.user_profile_id == u)
          ({ user_profile_id := u, missed_rows := urows,
             count := urows.length } : SendCall)) = fun u => u == uid := by
        funext u
        rfl
      rw [heq, ← List.count_eq_countP]
      exact List.count_eq_one_of_mem (List.nodup_dedup _) hmem
    · unfold flushCalls
      exact List.mem_map.2 ⟨uid, hmem, rfl⟩
    · rfl
    · intro r2 hr2 hr2uid
      have hpred := (List.mem_filter.1 hr2).2
      rw [hr2uid] at hpred
      simp only [Bool.not_eq_true'] at hpred
      rw [List.contains_eq_any_beq] at hpred
      have := List.any_eq_false.1 hpred uid hmem
      simp at this
  · intro hempty
    have hrem : st.rows.filter
        (fun r => !(dueUserIds now st.rows).contains r.user_profile_id) = [] := hempty
    have harm : (maybeSendBatchedEmails now st).timerArmed
        = (if (st.rows.filter
            (fun r => !(dueUserIds now st.rows).contains r.user_profile_id)).isEmpty
           then false else st.timerArmed) := rfl
    rw [harm, hrem]
    rfl

theorem flush_due_recipients_exactly_once_witness :
    ((maybeSendBatchedEmails 10 mmStateA).rows = mmStateA.rows ∧
     (maybeSendBatchedEmails 10 mmStateA).sent = mmStateA.sent) ∧
    ((flushCalls 70 mmStateA.rows).countP (fun c => c.user_profile_id == 1) = 1 ∧
     ({ user_profile_id := 1
        missed_rows := mmStateA.rows.filter (fun r => r.user_profile_id == 1)
        count := (mmStateA.rows.filter (fun r => r.user_profile_id == 1)).length }
          : SendCall)
       ∈ flushCalls 70 mmStateA.rows ∧
     (maybeSendBatchedEmails 70 mmStateA).sent
       = mmStateA.sent ++ flushCalls 70 mmStateA.rows ∧
     ∀ r ∈ (maybeSendBatchedEmails 70 mmStateA).rows, r.user_profile_id ≠ 1) ∧
    ((maybeSendBatchedEmails 70 mmStateA).rows = [] →
      (maybeSendBatchedEmails 70 mmStateA).timerArmed = false) :=
  ⟨(flush_due_recipients_exactly_once 10 mmStateA).1 (by decide),
   (flush_due_recipients_exactly_once 70 mmStateA).2.1 1 ⟨mmRowA, by decide, rfl, by decide⟩,
   (flush_due_recipients_exactly_once 70 mmStateA).2.2⟩

/-- C8: if persisting an event raises a referential-integrity error (the
target message was deleted), the event is dropped, a DEBUG record whose
message names the drop reason is logged, no error propagates, and the worker
continues: a run over the failing event followed by a good one handles the
good one exactly as if only the debug log had been added. -/
theorem integrity_error_drops_event_and_continues (window now : Nat) (st : MMState)
    (e e2 : MMEvent) (pOk : MMEvent → Bool)
    (hfail : pOk e = false) (hok : pOk e2 = true) :
    (handleMissedMessageEvent window now false st e).rows = st.rows ∧
    (handleMissedMessageEvent window now false st e).logs
      = st.logs ++ [MMLog.rowNotCreated] ∧
    MMLog.level MMLog.rowNotCreated = LogLevel.debug ∧
    MMLog.message MMLog.rowNotCreated
      = "ScheduledMessageNotificationEmail row could not be created. The message may have been deleted. Skipping event." ∧
    runMissedMessageWorker window now pOk [e, e2] st
      = handleMissedMessageEvent window now true
          { st with logs := st.logs ++ [MMLog.rowNotCreated] } e2 := by
  refine ⟨rfl, rfl, rfl, rfl, ?_⟩
  unfold runMissedMessageWorker
  simp only [List.foldl_cons, List.foldl_nil, hfail, hok]
  rfl

theorem integrity_error_drops_event_and_continues_witness :
    (handleMissedMessageEvent 60 0 false mmEmpty mmEventA).rows = mmEmpty.rows ∧
    (handleMissedMessageEvent 60 0 false mmEmpty mmEventA).logs
      = mmEmpty.logs ++ [MMLog.rowNotCreated] ∧
    MMLog.level MMLog.rowNotCreated = LogLevel.debug ∧
    MMLog.message MMLog.rowNotCreated
      = "ScheduledMessageNotificationEmail row could not be created. The message may have been deleted. Skipping event." ∧
    runMissedMessageWorker 60 0 (fun ev => ev.message_id == 11)
        [mmEventA, mmEventB] mmEmpty
      = handleMissedMessageEvent 60 0 true
          { mmEmpty with logs := mmEmpty.logs ++ [MMLog.rowNotCreated] } mmEventB :=
  integrity_error_drops_event_and_continues 60 0 mmEmpty mmEventA mmEventB
    (fun ev => ev.message_id == 11) (by decide) (by decide)

/-! ## Worker registry (modelled from spec 4.4; assign_queue and
    get_active_worker_queues of zerver/worker/queue_processors.py are absent
    from the sources) -/

/-- A registered worker descriptor: the unique queue name and the test flag
of the assign_queue registration.  Only concrete (non-abstract) worker
classes are registered. -/
structure WorkerDescriptor where
  queue_name : String
  is_test_queue : Bool
deriving DecidableEq

/-- Modelled from the spec (4.4): get_active_worker_queues returns the names
of the registered descriptors whose test flag matches the requested one
(only_test_queues defaults to false). -/
def get_active_worker_queues (registry : List WorkerDescriptor)
    (only_test_queues : Bool) : List String :=
  (registry.filter (fun d => d.is_test_queue == only_test_queues)).map
    (fun d => d.queue_name)

/-- C9: with the default flag, the active-queues enumeration is exactly the
queue names of the registered non-test descriptors: every non-test worker
queue name appears in it, everything in it is the name of some non-test
worker, and — names being unique, as the registry enforces — no test-flagged
queue name appears in it. -/
theorem active_queues_excludes_test_queues (registry : List WorkerDescriptor)
    (hnodup : (registry.map (fun d => d.queue_name)).Nodup) :
    (∀ d ∈ registry, d.is_test_queue = false →
      d.queue_name ∈ get_active_worker_queues registry false) ∧
    (∀ name ∈ get_active_worker_queues registry false,
      ∃ d ∈ registry, d.is_test_queue = false ∧ d.queue_name = name) ∧
    (∀ d ∈ registry, d.is_test_queue = true →
      d.queue_name ∉ get_active_worker_queues registry false) := by
  refine ⟨?_, ?_, ?_⟩
  · intro d hd hflag
    exact List.mem_map.2 ⟨d, List.mem_filter.2 ⟨hd, by simp [hflag]⟩, rfl⟩
  · intro name hname
    obtain ⟨d, hd, hdname⟩ := List.mem_map.1 hname
    have hd' := List.mem_filter.1 hd
    refine ⟨d, hd'.1, ?_, hdname⟩
    simpa using hd'.2
  · intro d hd hflag hmem
    obtain ⟨d2, hd2, hd2name⟩ := List.mem_map.1 hmem
    have hd2' := List.mem_filter.1 hd2
    have hflag2 : d2.is_test_queue = false := by simpa using hd2'.2
    have : d2 = d := List.inj_on_of_nodup_map hnodup hd2'.1 hd hd2name
    rw [this, hflag] at hflag2
    exact absurd hflag2 (by simp)

theorem active_queues_excludes_test_queues_witness :
    (∀ d ∈ [WorkerDescriptor.mk "email_senders" false,
            WorkerDescriptor.mk "unreliable_worker" true],
      d.is_test_queue = false →
      d.queue_name ∈ get_active_worker_queues
        [WorkerDescriptor.mk "email_senders" false,
         WorkerDescriptor.mk "unreliable_worker" true] false) ∧
    (∀ name ∈ get_active_worker_queues
        [WorkerDescriptor.mk "email_senders" false,
         WorkerDescriptor.mk "unreliable_worker" true] false,
      ∃ d ∈ [WorkerDescriptor.mk "email_senders" false,
             WorkerDescriptor.mk "unreliable_worker" true],
        d.is_test_queue = false ∧ d.queue_name = name) ∧
    (∀ d ∈ [WorkerDescriptor.mk "email_senders" false,
            WorkerDescriptor.mk "unreliable_worker" true],
      d.is_test_queue = true →
      d.queue_name ∉ get_active_worker_queues
        [WorkerDescriptor.mk "email_senders" false,
         WorkerDescriptor.mk "unreliable_worker" true] false) :=
  active_queues_excludes_test_queues
    [WorkerDescriptor.mk "email_senders" false,
     WorkerDescriptor.mk "unreliable_worker" true] (by decide)

/-! ## Push-notification worker dispatch (modelled from spec 4.1/6; the
    PushNotificationsWorker.consume dispatch of
    zerver/worker/queue_processors.py is absent from the sources, its legacy
    message_id compatibility evidenced by
    WorkerTest.test_push_notifications_worker) -/

/-- A push-notification queue event: its type field ("remove" or a
new-message notification), the recipient, and either the message_ids list or
the legacy singular message_id field. -/
structure PushEvent where
  type : String
  user_profile_id : Nat
  message_ids : Option (List Nat) := none
  message_id : Option Nat := none
deriving DecidableEq

/-- A handler invocation made by the push worker. -/
inductive PushCall where
  | handleRemove (user_profile_id : Nat) (message_ids : List Nat)
  | handleNew (user_profile_id : Nat)
deriving DecidableEq

/-- Modelled from the spec: the dispatch of PushNotificationsWorker.consume.
A "remove" event dispatches to the remove handler with the event's
message_ids; an event carrying only the legacy singular message_id field is
converted first, the field becoming a one-element list.  Any other event
dispatches to the new-message handler with the whole event.  Returns the
handler invocations made, in order. -/
def pushConsume (e : PushEvent) : List PushCall :=
  if e.type == "remove" then
    let ids :=
      match e.message_ids with
      | some ids => ids
      | none =>
        match e.message_id with
        | some mid => [mid]
        | none => []
    [.handleRemove e.user_profile_id ids]
  else
    [.handleNew e.user_profile_id]

/-- C10: a push event of type "remove" carrying the legacy singular
message_id field instead of message_ids is converted before dispatch: the
remove handler is invoked exactly once, with the event's user_profile_id and
the one-element list holding that message_id. -/
theorem remove_event_message_id_compat (e : PushEvent) (m : Nat)
    (htype : e.type = "remove") (hids : e.message_ids = none)
    (hid : e.message_id = some m) :
    pushConsume e = [PushCall.handleRemove e.user_profile_id [m]] := by
  simp [pushConsume, htype, hids, hid]

theorem remove_event_message_id_compat_witness :
    pushConsume { type := "remove", user_profile_id := 10, message_id := some 33 }
      = [PushCall.handleRemove 10 [33]] :=
  remove_event_message_id_compat
    { type := "remove", user_profile_id := 10, message_id := some 33 } 33 rfl rfl rfl

end Zulip
